import Mathlib

/-!
A shallow embedding of `redis-migrate` (`migrator/main.py`) together with
proofs about its URI handling, its batched type-aware migration loop, its
multi-database dispatcher, and the snapshot-mode restore check described in
the design document.

Strings manipulated character-by-character by the Python code are modelled
as `List Char`; Redis keys, type tags and values that are only compared for
equality are modelled as Lean `String`.  Python exceptions are modelled as
`Except`/`Option` failure values.
-/

/-! ## Decimal digits: models of Python `str(int)` and `int(str)` -/

/-- The character for a decimal digit `d < 10` (codepoint `48 + d`). -/
def digitChar (d : Nat) : Char := Char.ofNat (48 + d)

/-- Decimal representation of a natural number, most significant digit first.
Models Python `str` on a non-negative `int`. -/
def natToStr (n : Nat) : List Char :=
  if _ : n < 10 then [digitChar n]
  else natToStr (n / 10) ++ [digitChar (n % 10)]
termination_by n
decreasing_by exact Nat.div_lt_self (by omega) (by omega)

/-- Decimal representation of an integer.  Models Python `str` on `int`
(as used by `'{0}:{1}/{2}'.format` in `combine_uri`, written here without
brace placeholders). -/
def intToStr : Int → List Char
  | Int.ofNat n => natToStr n
  | Int.negSucc n => '-' :: natToStr (n + 1)

/-- The value of a decimal digit character, `none` for any other character. -/
def digitVal (c : Char) : Option Nat :=
  if 48 ≤ c.toNat ∧ c.toNat ≤ 57 then some (c.toNat - 48) else none

/-- Left fold of decimal digits onto an accumulator; `none` as soon as a
non-digit character is met. -/
def parseDigitsAux : Nat → List Char → Option Nat
  | acc, [] => some acc
  | acc, c :: cs =>
    match digitVal c with
    | some d => parseDigitsAux (acc * 10 + d) cs
    | none => none

/-- Parse a non-empty all-digit string; `none` on the empty string. -/
def parseDigits : List Char → Option Nat
  | [] => none
  | c :: cs => parseDigitsAux 0 (c :: cs)

/-- Models Python's built-in `int()` as used by `parse_uri` and
`migrate_all`: an optional sign followed by one or more decimal digits
(`none` models the `ValueError` raised on anything else). -/
def strToInt (s : List Char) : Option Int :=
  match s with
  | [] => none
  | c :: cs =>
    if c = '-' then (parseDigits cs).map (fun n => -(n : Int))
    else if c = '+' then (parseDigits cs).map (fun n => (n : Int))
    else (parseDigits (c :: cs)).map (fun n => (n : Int))

/-! ## Python `str.split` on a single-character separator -/

/-- Models Python `s.split(sep)` for a one-character separator: splits at
every occurrence, keeping empty parts (`''.split('/') == ['']`). -/
def pySplit (sep : Char) : List Char → List (List Char)
  | [] => [[]]
  | c :: cs =>
    if c = sep then [] :: pySplit sep cs
    else
      match pySplit sep cs with
      | [] => [[c]]
      | p :: ps => (c :: p) :: ps

/-! ## The URI parser and combiner (`parse_uri`, `combine_uri`) -/

/-- The first assignment block of `parse_uri`: if `uri.split('/')` has
exactly two parts the right one becomes the db string, otherwise the uri is
kept whole and the db keeps its integer default. -/
def splitHostDb (uri : List Char) : List Char × Option (List Char) :=
  match pySplit '/' uri with
  | [h, d] => (h, some d)
  | _ => (uri, none)

/-- The second assignment block of `parse_uri`: if `host.split(':')` has
exactly two parts the right one becomes the port string, otherwise the host
is kept whole and the port keeps its integer default. -/
def splitHostPort (host : List Char) : List Char × Option (List Char) :=
  match pySplit ':' host with
  | [h, p] => (h, some p)
  | _ => (host, none)

/-- Apply Python `int()` to a component captured by a split, or keep the
integer default when no split happened. -/
def strToIntOrDefault (s : Option (List Char)) (dflt : Int) : Option Int :=
  match s with
  | some str => strToInt str
  | none => some dflt

/-- Embedding of `parse_uri`: extracts `(host, port, db)` from a uri,
`none` modelling the `ValueError` that `int()` raises on an unparseable
port or db component. -/
def parse_uri (uri : List Char) : Option (List Char × Int × Int) :=
  match strToIntOrDefault (splitHostPort (splitHostDb uri).1).2 6379,
        strToIntOrDefault (splitHostDb uri).2 0 with
  | some port, some db => some ((splitHostPort (splitHostDb uri).1).1, port, db)
  | _, _ => none

/-- Embedding of `combine_uri`: produces the string `host:port/db`. -/
def combine_uri (host : List Char) (port db : Int) : List Char :=
  host ++ ':' :: intToStr port ++ '/' :: intToStr db

/-! ## The type-aware batch pipeliner (`migrate`, lines 46-85)

Redis responses decoded with `decode_responses=True` are modelled by the
dynamic value type `PyVal`; commands queued on the source and destination
pipelines are modelled by `ReadCmd` and `WriteOp`. -/

/-- A decoded Python value as returned by the redis client: `None`, an
integer (`pttl`), a string (`get`) or a field dictionary (`hgetall`). -/
inductive PyVal where
  | pynone : PyVal
  | pyint : Int → PyVal
  | pystr : String → PyVal
  | pydict : List (String × String) → PyVal
deriving DecidableEq

/-- Python truthiness of a `PyVal`, as tested by `if data:` in the write
loop: `None`, the integer `0`, the empty string and the empty dict are
falsy. -/
def truthy : PyVal → Bool
  | PyVal.pynone => false
  | PyVal.pyint n => !(n == 0)
  | PyVal.pystr s => !(s == "")
  | PyVal.pydict l => !l.isEmpty

/-- A command queued on the source read pipeline. -/
inductive ReadCmd where
  | pttl : String → ReadCmd
  | get : String → ReadCmd
  | hgetall : String → ReadCmd
deriving DecidableEq

/-- A command queued on the destination write pipeline.  `set` carries the
optional millisecond expiry passed as `px`; `pexpire` is the conditional
expiry issued after `hmset`. -/
inductive WriteOp where
  | set : String → PyVal → Option Int → WriteOp
  | hmset : String → PyVal → WriteOp
  | pexpire : String → Int → WriteOp
deriving DecidableEq

/-- The millisecond expiry an op instructs the destination to apply, if
any. -/
def expiryOf : WriteOp → Option Int
  | WriteOp.set _ _ px => px
  | WriteOp.hmset _ _ => none
  | WriteOp.pexpire _ t => some t

/-- True when no op of the list carries any expiry instruction. -/
def noExpiry (ops : List WriteOp) : Bool :=
  ops.all fun op => (expiryOf op).isNone

/-- The second read-phase loop of `migrate`: for each `(key, type)` pair
queue `pttl key` and then `get key` or `hgetall key`; an unrecognized type
raises `ValueError(ktype + ' key type not yet supported')` before the read
pipeline is executed and before any write pipeline exists. -/
def buildReadCmds : List (String × String) → Except String (List ReadCmd)
  | [] => Except.ok []
  | (key, ktype) :: rest =>
    if ktype = "string" then
      match buildReadCmds rest with
      | Except.ok more => Except.ok (ReadCmd.pttl key :: ReadCmd.get key :: more)
      | Except.error e => Except.error e
    else if ktype = "hash" then
      match buildReadCmds rest with
      | Except.ok more => Except.ok (ReadCmd.pttl key :: ReadCmd.hgetall key :: more)
      | Except.error e => Except.error e
    else Except.error (ktype ++ " key type not yet supported")

/-- The write-phase body of `migrate` for one `(key, ktype, pttl, data)`
tuple: nothing is queued when `data` is falsy; otherwise a `pttl <= 0` is
turned into `None`, a string value is written with `set(key, data, px=pttl)`
and a hash value with `hmset` followed by `pexpire` when a ttl remains. -/
def writeStep (key ktype : String) (pttlv data : PyVal) : Except String (List WriteOp) :=
  if truthy data then
    match pttlv with
    | PyVal.pyint n =>
      if ktype = "string" then
        Except.ok [WriteOp.set key data (if n ≤ 0 then none else some n)]
      else if ktype = "hash" then
        Except.ok (WriteOp.hmset key data ::
          (if n ≤ 0 then [] else [WriteOp.pexpire key n]))
      else Except.error (ktype ++ " key type not yet supported")
    | _ => Except.error "pttl comparison type error"
  else Except.ok []

/-- The write-phase loop over the zipped batch, concatenating the queued
ops in submission order; the first raised error aborts the batch. -/
def goWrite : List (String × String × PyVal × PyVal) → Except String (List WriteOp)
  | [] => Except.ok []
  | (key, ktype, pttlv, data) :: rest =>
    match writeStep key ktype pttlv data with
    | Except.ok ops =>
      match goWrite rest with
      | Except.ok more => Except.ok (ops ++ more)
      | Except.error e => Except.error e
    | Except.error e => Except.error e

/-- Python slice `l[::2]` (elements at even positions). -/
def sliceStep2 : List α → List α
  | [] => []
  | [x] => [x]
  | x :: _ :: rest => x :: sliceStep2 rest

/-- Python slice `l[1::2]` (elements at odd positions). -/
def sliceOdd (l : List α) : List α := sliceStep2 (l.drop 1)

/-- Truncating zip of four lists, as Python `zip(a, b, c, d)`. -/
def zip4 : List α → List β → List γ → List δ → List (α × β × γ × δ)
  | a :: as, b :: bs, c :: cs, d :: ds => (a, b, c, d) :: zip4 as bs cs ds
  | _, _, _, _ => []

/-- The write phase of `migrate`: zips the keys with their types, their
`pttl` results (`key_data[::2]`) and their value results (`key_data[1::2]`)
and queues the writes. -/
def writePhase (keys key_types : List String) (key_data : List PyVal) :
    Except String (List WriteOp) :=
  goWrite (zip4 keys key_types (sliceStep2 key_data) (sliceOdd key_data))

/-- The source redis instance as seen by one `migrate` task: the scan
cursor protocol (`scan(cursor, count=count, match=match)`), the `type`
introspection of the first read pipeline, and the per-command results of
the second read pipeline. -/
structure Src where
  scan : Nat → Nat → Option String → Nat × List String
  typeOf : String → String
  read : ReadCmd → PyVal

/-- One iteration body of `migrate` for a scanned batch: run the type
pipeline, build and run the value read pipeline, then build the write
pipeline; returns the ops submitted to the destination, or the raised
error. -/
def migrateStepBatch (src : Src) (keys : List String) : Except String (List WriteOp) :=
  match buildReadCmds (keys.zip (keys.map src.typeOf)) with
  | Except.error e => Except.error e
  | Except.ok cmds => writePhase keys (keys.map src.typeOf) (cmds.map src.read)

/-- The module-level batch-size hint `count = 2500`. -/
def count : Nat := 2500

/-- The scan loop of `migrate`: scan from the current cursor with the
`count` hint, process the returned batch, stop after processing when the
returned cursor is the sentinel `0`.  The fuel argument only bounds the
number of iterations modelled; `none` means the bound was reached. -/
def migrateLoop (src : Src) (matchPat : Option String) :
    List WriteOp → Nat → Nat → Option (Except String (List WriteOp))
  | _, _, 0 => none
  | acc, cursor, fuel + 1 =>
    let sc := src.scan cursor count matchPat
    match migrateStepBatch src sc.2 with
    | Except.error e => some (Except.error e)
    | Except.ok ops =>
      if sc.1 = 0 then some (Except.ok (acc ++ ops))
      else migrateLoop src matchPat (acc ++ ops) sc.1 fuel

/-- Embedding of the `migrate` loop: starts at cursor `0` with nothing yet
written to the destination. -/
def migrate (src : Src) (matchPat : Option String) (fuel : Nat) :
    Option (Except String (List WriteOp)) :=
  migrateLoop src matchPat [] 0 fuel

/-- `followsTrace src matchPat c trace` certifies that, starting from
cursor `c`, successive `scan` calls with the `count` hint return exactly
the cursors and key batches recorded in `trace`, and that each recorded
batch processes into the recorded write ops. -/
def followsTrace (src : Src) (matchPat : Option String) :
    Nat → List (Nat × List String × List WriteOp) → Prop
  | _, [] => True
  | c, (c', keys, ops) :: rest =>
    src.scan c count matchPat = (c', keys) ∧
    migrateStepBatch src keys = Except.ok ops ∧
    followsTrace src matchPat c' rest

/-- The returned cursor is the sentinel `0` exactly at the last recorded
scan call. -/
def sentinelLast : List (Nat × List String × List WriteOp) → Prop
  | [] => False
  | [(c', _, _)] => c' = 0
  | (c', _, _) :: next :: rest => c' ≠ 0 ∧ sentinelLast (next :: rest)

/-- Concatenation of the write ops recorded along a trace. -/
def traceOps (trace : List (Nat × List String × List WriteOp)) : List WriteOp :=
  trace.foldr (fun b acc => b.2.2 ++ acc) []

/-- Whether an `Except` result is a success. -/
def exceptIsOk : Except ε α → Bool
  | Except.ok _ => true
  | Except.error _ => false

/-! ## The database dispatcher (`migrate_all`, lines 88-105) -/

/-- The arguments of one `migrate` task built by `migrate_all`'s starmap
list (Python parameter `match` is called `matchPat` here). -/
structure MigrateArgs where
  srchost : String
  srcport : Int
  srcdb : Int
  dsthost : String
  dstport : Int
  dstdb : Int
  srcpasswd : Option String
  dstpasswd : Option String
  barpos : Nat
  matchPat : Option String
deriving DecidableEq

/-- The non-keyspace inputs of `migrate_all`. -/
structure DispatchCfg where
  srchost : String
  srcport : Int
  dsthost : String
  dstport : Int
  srcpasswd : Option String
  dstpasswd : Option String
  nprocs : Int
  matchPat : Option String
deriving DecidableEq

/-- The connection parameters of a `redis.StrictRedis(...)` constructor
call, with the client's defaults `db=0` and `password=None` for omitted
keyword arguments. -/
structure KeyspaceInfoConn where
  host : String
  port : Int
  db : Int
  password : Option String
deriving DecidableEq

/-- Python `int(db[2:])`: the numeric index parsed from a keyspace-info
name such as `db3`. -/
def dbIndex (db : String) : Option Int := strToInt (db.data.drop 2)

/-- The starmap argument list of `migrate_all`: one `migrate` task per
keyspace entry, the parsed index used as both source and destination db,
the enumeration position as the display bar position.  `none` models the
`ValueError` raised when a name does not parse. -/
def buildTasks (cfg : DispatchCfg) : Nat → List String → Option (List MigrateArgs)
  | _, [] => some []
  | i, db :: rest =>
    match dbIndex db, buildTasks cfg (i + 1) rest with
    | some idx, some more =>
      some ({ srchost := cfg.srchost, srcport := cfg.srcport, srcdb := idx,
              dsthost := cfg.dsthost, dstport := cfg.dstport, dstdb := idx,
              srcpasswd := cfg.srcpasswd, dstpasswd := cfg.dstpasswd,
              barpos := i, matchPat := cfg.matchPat } :: more)
    | _, _ => none

/-- Embedding of `migrate_all`, given the names reported by the source's
keyspace-info query: the connection opened for that query
(`redis.StrictRedis(host=srchost, port=srcport)`, no password passed), the
worker-pool size `min(len(keyspace.keys()), nprocs)`, and the per-database
task list. -/
def migrate_all (cfg : DispatchCfg) (keyspaceKeys : List String) :
    Option (KeyspaceInfoConn × Int × List MigrateArgs) :=
  match buildTasks cfg 0 keyspaceKeys with
  | some tasks =>
    some ({ host := cfg.srchost, port := cfg.srcport, db := 0, password := none },
          min (keyspaceKeys.length : Int) cfg.nprocs, tasks)
  | none => none

/-! ## Snapshot-mode restore check -/

/-- The outcome reported by the destination for one `restore` command. -/
inductive RestoreResult where
  | success : RestoreResult
  | keyExists : RestoreResult
  | other : String → RestoreResult
deriving DecidableEq

/-- Modelled from the spec: the snapshot-based migrator's per-key check of
a restore result (the snapshot-mode source file is not under `src/`).  A
result indicating success, or a result indicating the key already exists
when overwrite was requested, is accepted; any other result raises
`MigrationFailed(key, result)`, modelled as the error value. -/
def checkRestoreResult (overwrite : Bool) (key : String) (r : RestoreResult) :
    Except (String × RestoreResult) Unit :=
  match r with
  | RestoreResult.success => Except.ok ()
  | RestoreResult.keyExists =>
    if overwrite then Except.ok () else Except.error (key, RestoreResult.keyExists)
  | RestoreResult.other m => Except.error (key, RestoreResult.other m)

/-! ## Concrete instances used to exercise the theorems -/

/-- A source whose db holds the single string key `k` with the empty string
as value and a positive remaining ttl. -/
def emptyStringValueSrc : Src :=
  { scan := fun _ _ _ => (0, ["k"]),
    typeOf := fun _ => "string",
    read := fun cmd =>
      match cmd with
      | ReadCmd.pttl _ => PyVal.pyint 1000
      | _ => PyVal.pystr "" }

/-- A source reporting a supported-type key alongside a `set`-type key in
the same batch. -/
def mixedTypeSrc : Src :=
  { scan := fun _ _ _ => (0, ["strKey", "setKey"]),
    typeOf := fun k => if k = "setKey" then "set" else "string",
    read := fun _ => PyVal.pystr "v" }

/-- A source whose scan yields the batch `[a]` with continuation cursor `7`
and then the batch `[b]` with the sentinel cursor; both keys are strings
with no remaining expiry. -/
def twoBatchSrc : Src :=
  { scan := fun c _ _ => if c = 0 then (7, ["a"]) else (0, ["b"]),
    typeOf := fun _ => "string",
    read := fun cmd =>
      match cmd with
      | ReadCmd.pttl _ => PyVal.pyint (-1)
      | _ => PyVal.pystr "v" }

/-- The scan trace `twoBatchSrc` produces from cursor `0`. -/
def twoBatchTrace : List (Nat × List String × List WriteOp) :=
  [(7, ["a"], [WriteOp.set "a" (PyVal.pystr "v") none]),
   (0, ["b"], [WriteOp.set "b" (PyVal.pystr "v") none])]

/-- A dispatch configuration with no credentials. -/
def plainCfg : DispatchCfg :=
  { srchost := "s", srcport := 6379, dsthost := "d", dstport := 6380,
    srcpasswd := none, dstpasswd := none, nprocs := 4, matchPat := none }

/-- A dispatch configuration supplying credentials for both endpoints. -/
def credCfg : DispatchCfg :=
  { srchost := "s", srcport := 6379, dsthost := "d", dstport := 6380,
    srcpasswd := some "sek", dstpasswd := some "dek", nprocs := 2,
    matchPat := none }

/-- The first task `migrate_all plainCfg ["db0", "db3"]` builds. -/
def plainTask0 : MigrateArgs :=
  { srchost := "s", srcport := 6379, srcdb := 0, dsthost := "d",
    dstport := 6380, dstdb := 0, srcpasswd := none, dstpasswd := none,
    barpos := 0, matchPat := none }

/-- The second task `migrate_all plainCfg ["db0", "db3"]` builds. -/
def plainTask1 : MigrateArgs :=
  { srchost := "s", srcport := 6379, srcdb := 3, dsthost := "d",
    dstport := 6380, dstdb := 3, srcpasswd := none, dstpasswd := none,
    barpos := 1, matchPat := none }

/-- The connection `migrate_all plainCfg` opens for the keyspace query. -/
def plainConn : KeyspaceInfoConn :=
  { host := "s", port := 6379, db := 0, password := none }

/-- The task `migrate_all credCfg ["db1"]` builds. -/
def credTask0 : MigrateArgs :=
  { srchost := "s", srcport := 6379, srcdb := 1, dsthost := "d",
    dstport := 6380, dstdb := 1, srcpasswd := some "sek",
    dstpasswd := some "dek", barpos := 0, matchPat := none }

/-! # Groundwork lemmas: decimal round trip -/

theorem digitVal_digitChar (d : Nat) (h : d < 10) : digitVal (digitChar d) = some d := by
  interval_cases d <;> rfl

theorem digitChar_not_special (d : Nat) (h : d < 10) :
    digitChar d ≠ '-' ∧ digitChar d ≠ '+' ∧ digitChar d ≠ '/' ∧ digitChar d ≠ ':' := by
  interval_cases d <;> exact ⟨by decide, by decide, by decide, by decide⟩

theorem natToStr_ne_nil (n : Nat) : natToStr n ≠ [] := by
  rw [natToStr.eq_def]
  split <;> simp

theorem natToStr_digits (n : Nat) : ∀ c ∈ natToStr n, ∃ d, d < 10 ∧ c = digitChar d := by
  induction n using Nat.strong_induction_on with
  | _ n ih =>
    intro c hc
    rw [natToStr.eq_def] at hc
    split at hc
    · next h =>
      rw [List.mem_singleton] at hc
      exact ⟨n, h, hc⟩
    · next h =>
      rcases List.mem_append.mp hc with h1 | h2
      · exact ih (n / 10) (Nat.div_lt_self (by omega) (by omega)) c h1
      · rw [List.mem_singleton] at h2
        exact ⟨n % 10, Nat.mod_lt n (by omega), h2⟩

theorem parseDigitsAux_append (xs : List Char) :
    ∀ (a : Nat) (ys : List Char),
      parseDigitsAux a (xs ++ ys) =
        match parseDigitsAux a xs with
        | some b => parseDigitsAux b ys
        | none => none := by
  induction xs with
  | nil => intro a ys; rfl
  | cons c cs ih =>
    intro a ys
    cases hdv : digitVal c with
    | none => simp [parseDigitsAux, hdv]
    | some d =>
      simp only [List.cons_append, parseDigitsAux, hdv]
      exact ih _ ys

theorem parseDigitsAux_natToStr (n : Nat) :
    ∀ a : Nat, parseDigitsAux a (natToStr n) = some (a * 10 ^ (natToStr n).length + n) := by
  induction n using Nat.strong_induction_on with
  | _ n ih =>
    intro a
    have key : ∀ B : Nat, (B + n / 10) * 10 + n % 10 = B * 10 + n := by
      intro B; omega
    rw [natToStr.eq_def]
    split
    · next h =>
      simp [parseDigitsAux, digitVal_digitChar n h]
    · next h =>
      rw [parseDigitsAux_append]
      rw [ih (n / 10) (Nat.div_lt_self (by omega) (by omega)) a]
      show parseDigitsAux _ [digitChar (n % 10)] = _
      simp only [parseDigitsAux, digitVal_digitChar (n % 10) (Nat.mod_lt n (by omega))]
      rw [key]
      simp [List.length_append, pow_succ, Nat.mul_assoc]

theorem parseDigits_natToStr (n : Nat) : parseDigits (natToStr n) = some n := by
  rcases h : natToStr n with _ | ⟨c, cs⟩
  · exact absurd h (natToStr_ne_nil n)
  · have hx := parseDigitsAux_natToStr n 0
    rw [h] at hx
    simpa [parseDigits] using hx

theorem strToInt_natToStr (n : Nat) : strToInt (natToStr n) = some (n : Int) := by
  rcases h : natToStr n with _ | ⟨c, cs⟩
  · exact absurd h (natToStr_ne_nil n)
  · obtain ⟨d, hd, rfl⟩ : ∃ d, d < 10 ∧ c = digitChar d :=
      natToStr_digits n c (by rw [h]; exact List.mem_cons_self c cs)
    have hns := digitChar_not_special d hd
    have hp : parseDigits (digitChar d :: cs) = some n := by
      rw [← h]; exact parseDigits_natToStr n
    simp [strToInt, hns.1, hns.2.1, hp]

theorem strToInt_intToStr (i : Int) : strToInt (intToStr i) = some i := by
  cases i with
  | ofNat n => exact strToInt_natToStr n
  | negSucc m =>
    show strToInt ('-' :: natToStr (m + 1)) = some (Int.negSucc m)
    simp [strToInt, parseDigits_natToStr (m + 1), Int.negSucc_eq]

theorem mem_intToStr (i : Int) (c : Char) (hc : c ∈ intToStr i) :
    c = '-' ∨ ∃ d, d < 10 ∧ c = digitChar d := by
  cases i with
  | ofNat n => exact Or.inr (natToStr_digits n c hc)
  | negSucc m =>
    rcases List.mem_cons.mp hc with h | h
    · exact Or.inl h
    · exact Or.inr (natToStr_digits (m + 1) c h)

theorem slash_not_mem_intToStr (i : Int) : '/' ∉ intToStr i := by
  intro hc
  rcases mem_intToStr i '/' hc with h | ⟨d, hd, h⟩
  · exact absurd h (by decide)
  · exact absurd h.symm (digitChar_not_special d hd).2.2.1

theorem colon_not_mem_intToStr (i : Int) : ':' ∉ intToStr i := by
  intro hc
  rcases mem_intToStr i ':' hc with h | ⟨d, hd, h⟩
  · exact absurd h (by decide)
  · exact absurd h.symm (digitChar_not_special d hd).2.2.2

/-! # Groundwork lemmas: Python split -/

theorem pySplit_no_sep (sep : Char) : ∀ l : List Char, sep ∉ l → pySplit sep l = [l] := by
  intro l
  induction l with
  | nil => intro _; rfl
  | cons c cs ih =>
    intro h
    have hcs : sep ∉ cs := fun hx => h (List.mem_cons_of_mem c hx)
    have hc : c ≠ sep := fun hx => h (hx ▸ List.mem_cons_self c cs)
    simp [pySplit, hc, ih hcs]

theorem pySplit_sep_append (sep : Char) :
    ∀ (a b : List Char), sep ∉ a → pySplit sep (a ++ sep :: b) = a :: pySplit sep b := by
  intro a
  induction a with
  | nil => intro b _; simp [pySplit]
  | cons c cs ih =>
    intro b h
    have hcs : sep ∉ cs := fun hx => h (List.mem_cons_of_mem c hx)
    have hc : c ≠ sep := fun hx => h (hx ▸ List.mem_cons_self c cs)
    simp [pySplit, hc, ih b hcs]

theorem pySplit_two (sep : Char) (a b : List Char) (ha : sep ∉ a) (hb : sep ∉ b) :
    pySplit sep (a ++ sep :: b) = [a, b] := by
  rw [pySplit_sep_append sep a b ha, pySplit_no_sep sep b hb]

/-! # C1: URI round trip -/

/-- C1: for every valid triple — `host` containing no `':'` and no `'/'`,
`port` an integer, `db` an integer — `parse_uri (combine_uri host port db)`
returns exactly `(host, port, db)`, where `combine_uri` produces the string
`host:port/db`. -/
theorem uri_round_trip (host : List Char) (port db : Int)
    (hcolon : ':' ∉ host) (hslash : '/' ∉ host) :
    parse_uri (combine_uri host port db) = some (host, port, db) := by
  have hcombine : combine_uri host port db
      = (host ++ ':' :: intToStr port) ++ '/' :: intToStr db := by
    simp [combine_uri]
  have hnoslash : '/' ∉ host ++ ':' :: intToStr port := by
    intro hmem
    rcases List.mem_append.mp hmem with h | h
    · exact hslash h
    · rcases List.mem_cons.mp h with h | h
      · exact absurd h (by decide)
      · exact slash_not_mem_intToStr port h
  have h1 : pySplit '/' (combine_uri host port db)
      = [host ++ ':' :: intToStr port, intToStr db] := by
    rw [hcombine]
    exact pySplit_two '/' _ _ hnoslash (slash_not_mem_intToStr db)
  have h2 : pySplit ':' (host ++ ':' :: intToStr port) = [host, intToStr port] :=
    pySplit_two ':' _ _ hcolon (colon_not_mem_intToStr port)
  have hdb : splitHostDb (combine_uri host port db)
      = (host ++ ':' :: intToStr port, some (intToStr db)) := by
    simp only [splitHostDb, h1]
  have hport : splitHostPort (host ++ ':' :: intToStr port)
      = (host, some (intToStr port)) := by
    simp only [splitHostPort, h2]
  simp only [parse_uri, hdb, hport, strToIntOrDefault, strToInt_intToStr]

/-- Witness for C1 at the host `host`, port `6379`, db `2`. -/
theorem uri_round_trip_witness :
    parse_uri (combine_uri ['h', 'o', 's', 't'] 6379 2)
      = some (['h', 'o', 's', 't'], 6379, 2) :=
  uri_round_trip ['h', 'o', 's', 't'] 6379 2 (by decide) (by decide)

/-! # C2: malformed URI rejection -/

/-- C2 counterexample: the input `a/b/c` contains `'/'` twice, yet
`parse_uri` does not fail: the three-part split leaves the whole string as
the host and the defaults are returned. -/
theorem parse_uri_accepts_double_slash :
    parse_uri ['a', '/', 'b', '/', 'c'] = some (['a', '/', 'b', '/', 'c'], 6379, 0) := by
  rfl

/-- C2 amended: `parse_uri` fails exactly when an exactly-one-occurrence
separator split isolates a port or db component that is not parseable as an
integer; inputs in which `'/'` or `':'` appears more than once are not
rejected for that reason — the unsplit string stays in the host and the
defaults apply. -/
theorem parse_uri_failure_iff (uri : List Char) :
    parse_uri uri = none ↔
      (∃ p, (splitHostPort (splitHostDb uri).1).2 = some p ∧ strToInt p = none) ∨
      (∃ d, (splitHostDb uri).2 = some d ∧ strToInt d = none) := by
  unfold parse_uri strToIntOrDefault
  rcases hp : (splitHostPort (splitHostDb uri).1).2 with _ | p <;>
    rcases hd : (splitHostDb uri).2 with _ | d
  · simp
  · cases hsd : strToInt d <;> simp [hsd]
  · cases hsp : strToInt p <;> simp [hsp]
  · cases hsp : strToInt p <;> cases hsd : strToInt d <;> simp [hsp, hsd]

/-- Witness for C2 (amended) at the input `h/x`: the db component `x` is
not an integer, so parsing fails. -/
theorem parse_uri_failure_iff_witness :
    parse_uri ['h', '/', 'x'] = none :=
  (parse_uri_failure_iff ['h', '/', 'x']).mpr (Or.inr ⟨['x'], rfl, rfl⟩)

/-! # C3: TTL translation -/

/-- C3: in the type-aware write phase, a key whose remaining ttl is `0` or
negative gets no expiry instruction (no `px` on the `set`, no `pexpire`
after the `hmset`); a positive ttl is forwarded as the millisecond expiry
(`px` on `set` for strings, `pexpire` after `hmset` for hashes). -/
theorem ttl_translation (key ktype : String) (pttl : Int) (data : PyVal)
    (ops : List WriteOp)
    (h : writeStep key ktype (PyVal.pyint pttl) data = Except.ok ops) :
    (pttl ≤ 0 → noExpiry ops = true) ∧
    (0 < pttl → truthy data = true →
      (ktype = "string" → ops = [WriteOp.set key data (some pttl)]) ∧
      (ktype = "hash" → ops = [WriteOp.hmset key data, WriteOp.pexpire key pttl])) := by
  by_cases htr : truthy data
  · simp only [writeStep, if_pos htr] at h
    by_cases hs : ktype = "string"
    · subst hs
      simp only [if_pos rfl] at h
      constructor
      · intro hle
        rw [if_pos hle] at h
        cases h
        rfl
      · intro hpos _
        rw [if_neg (show ¬pttl ≤ 0 by omega)] at h
        cases h
        exact ⟨fun _ => rfl, fun hh => by simp at hh⟩
    · by_cases hh : ktype = "hash"
      · subst hh
        simp only [if_neg hs, if_pos rfl] at h
        constructor
        · intro hle
          rw [if_pos hle] at h
          cases h
          rfl
        · intro hpos _
          rw [if_neg (show ¬pttl ≤ 0 by omega)] at h
          cases h
          exact ⟨fun hx => by simp at hx, fun _ => rfl⟩
      · simp only [if_neg hs, if_neg hh] at h
        simp at h
  · simp only [writeStep, if_neg htr] at h
    cases h
    exact ⟨fun _ => rfl, fun _ hx => absurd hx htr⟩

/-- Witness for C3: a hash key with ttl `-3` produces only the `hmset` (no
expiry instruction), and a string key with ttl `7` produces a `set` whose
`px` is exactly `7`. -/
theorem ttl_translation_witness :
    noExpiry [WriteOp.hmset "k" (PyVal.pydict [("f", "v")])] = true ∧
    [WriteOp.set "k2" (PyVal.pystr "v") (some 7)]
      = [WriteOp.set "k2" (PyVal.pystr "v") (some 7)] :=
  ⟨(ttl_translation "k" "hash" (-3) (PyVal.pydict [("f", "v")])
      [WriteOp.hmset "k" (PyVal.pydict [("f", "v")])] (by rfl)).1 (by decide),
   ((ttl_translation "k2" "string" 7 (PyVal.pystr "v")
      [WriteOp.set "k2" (PyVal.pystr "v") (some 7)] (by rfl)).2 (by decide) rfl).1 rfl⟩

/-! # C4: completeness (falsified by empty-string values) -/

/-- C4 fails on the code: the source holds the single matched string key
`k` with the successfully-read payload `''` (and ttl `1000`); the migrate
loop completes without fatal error, yet no write at all is issued for `k`,
because the `if data:` truthiness guard treats the empty-string payload
like an absent one. -/
theorem empty_string_value_skipped :
    migrate emptyStringValueSrc none 1 = some (Except.ok []) := by
  rfl

/-! # C5: unsupported-type abort -/

/-- Helper: a pair list holding any unsupported type makes the read-phase
command builder raise. -/
theorem buildReadCmds_err :
    ∀ l : List (String × String),
      (l.any fun p => !(p.2 == "string" || p.2 == "hash")) = true →
      exceptIsOk (buildReadCmds l) = false := by
  intro l
  induction l with
  | nil => intro h; simp at h
  | cons p ps ih =>
    intro h
    obtain ⟨k, t⟩ := p
    simp only [List.any_cons, Bool.or_eq_true] at h
    simp only [buildReadCmds]
    by_cases h1 : t = "string"
    · have htail := h.resolve_left (by simp [h1])
      have hx := ih htail
      rw [if_pos h1]
      cases hcmd : buildReadCmds ps with
      | error e => rfl
      | ok more => rw [hcmd] at hx; exact absurd hx (by simp [exceptIsOk])
    · by_cases h2 : t = "hash"
      · have htail := h.resolve_left (by simp [h2])
        have hx := ih htail
        rw [if_neg h1, if_pos h2]
        cases hcmd : buildReadCmds ps with
        | error e => rfl
        | ok more => rw [hcmd] at hx; exact absurd hx (by simp [exceptIsOk])
      · rw [if_neg h1, if_neg h2]
        rfl

theorem zip_map_any (f : String → String) (p : String × String → Bool) :
    ∀ keys : List String,
      ((keys.zip (keys.map f)).any p) = keys.any fun k => p (k, f k) := by
  intro keys
  induction keys with
  | nil => rfl
  | cons k ks ih => simp [ih]

/-- C5: when any key of a batch has a type other than `string` or `hash`,
the read phase raises before the value read pipeline is executed and before
any write pipeline for the batch is built, so the whole batch — sibling
keys of supported types included — produces no destination write. -/
theorem unsupported_type_aborts_batch (src : Src) (keys : List String)
    (h : keys.any
      (fun k => !(src.typeOf k == "string" || src.typeOf k == "hash")) = true) :
    exceptIsOk (buildReadCmds (keys.zip (keys.map src.typeOf))) = false ∧
    exceptIsOk (migrateStepBatch src keys) = false := by
  have hany : ((keys.zip (keys.map src.typeOf)).any
      fun p => !(p.2 == "string" || p.2 == "hash")) = true := by
    rw [zip_map_any]
    simpa using h
  have hb : exceptIsOk (buildReadCmds (keys.zip (keys.map src.typeOf))) = false :=
    buildReadCmds_err _ hany
  refine ⟨hb, ?_⟩
  unfold migrateStepBatch
  cases hcmd : buildReadCmds (keys.zip (keys.map src.typeOf)) with
  | error e => rfl
  | ok cmds => rw [hcmd] at hb; exact absurd hb (by simp [exceptIsOk])

/-- Witness for C5: a batch holding a string key and a `set`-type key
aborts in the read phase and yields no writes. -/
theorem unsupported_type_aborts_batch_witness :
    exceptIsOk (buildReadCmds ((["strKey", "setKey"]).zip
      ((["strKey", "setKey"]).map mixedTypeSrc.typeOf))) = false ∧
    exceptIsOk (migrateStepBatch mixedTypeSrc ["strKey", "setKey"]) = false :=
  unsupported_type_aborts_batch mixedTypeSrc ["strKey", "setKey"] (by decide)

/-! # C8: skip semantics -/

/-- C8: a key whose payload read back absent (`None` for a vanished string,
the empty dict for a vanished hash) contributes no write, raises no error,
and leaves the processing of the other keys of the batch unchanged. -/
theorem absent_payload_skipped (pre post : List (String × String × PyVal × PyVal))
    (key ktype : String) (pttlv d : PyVal)
    (h : d = PyVal.pynone ∨ d = PyVal.pydict []) :
    goWrite (pre ++ (key, ktype, pttlv, d) :: post) = goWrite (pre ++ post) := by
  have hstep : writeStep key ktype pttlv d = Except.ok [] := by
    rcases h with rfl | rfl <;> rfl
  induction pre with
  | nil =>
    simp only [List.nil_append, goWrite, hstep]
    cases goWrite post <;> rfl
  | cons x pre ih =>
    obtain ⟨k1, t1, p1, d1⟩ := x
    simp only [List.cons_append, goWrite, List.append_eq] at ih ⊢
    rw [ih]

/-- Witness for C8: a vanished key between two present string keys leaves
the batch's writes exactly those of the two present keys. -/
theorem absent_payload_skipped_witness :
    goWrite [("a", "string", PyVal.pyint 5, PyVal.pystr "v"),
             ("gone", "string", PyVal.pyint 5, PyVal.pynone),
             ("b", "hash", PyVal.pyint (-1), PyVal.pydict [("f", "w")])] =
    goWrite [("a", "string", PyVal.pyint 5, PyVal.pystr "v"),
             ("b", "hash", PyVal.pyint (-1), PyVal.pydict [("f", "w")])] :=
  absent_payload_skipped [("a", "string", PyVal.pyint 5, PyVal.pystr "v")]
    [("b", "hash", PyVal.pyint (-1), PyVal.pydict [("f", "w")])]
    "gone" "string" (PyVal.pyint 5) PyVal.pynone (Or.inl rfl)

/-! # C7: scan-loop structure -/

/-- Helper: running the loop from cursor `c` along a certified scan trace
whose last returned cursor is the sentinel processes every recorded batch,
the sentinel batch included, and stops there. -/
theorem migrateLoop_trace (src : Src) (matchPat : Option String) :
    ∀ (trace : List (Nat × List String × List WriteOp)) (c : Nat) (acc : List WriteOp),
      followsTrace src matchPat c trace → sentinelLast trace →
      migrateLoop src matchPat acc c trace.length
        = some (Except.ok (acc ++ traceOps trace)) := by
  intro trace
  induction trace with
  | nil =>
    intro c acc _ h2
    exact absurd h2 (by simp [sentinelLast])
  | cons b rest ih =>
    obtain ⟨c', keys, ops⟩ := b
    intro c acc h1 h2
    obtain ⟨hscan, hstep, hrest⟩ := h1
    simp only [List.length_cons, migrateLoop, hscan, hstep]
    cases rest with
    | nil =>
      have hc : c' = 0 := h2
      subst hc
      simp [traceOps]
    | cons r rs =>
      obtain ⟨hne, hsl⟩ := h2
      rw [if_neg hne]
      rw [ih c' (acc ++ ops) hrest hsl]
      simp [traceOps, List.append_assoc]

/-- C7: the migrate loop starts scanning at cursor `0`, passes the
batch-size hint `count = 2500` to every scan call, processes each returned
batch (read pipeline then write pipeline), and stops exactly when the
returned cursor is the sentinel `0` — the batch returned together with the
sentinel is still fully processed before the loop terminates. -/
theorem scan_loop_processes_trace (src : Src) (matchPat : Option String)
    (trace : List (Nat × List String × List WriteOp))
    (h1 : followsTrace src matchPat 0 trace) (h2 : sentinelLast trace) :
    migrate src matchPat trace.length = some (Except.ok (traceOps trace)) ∧
    count = 2500 := by
  refine ⟨?_, rfl⟩
  have hx := migrateLoop_trace src matchPat trace 0 [] h1 h2
  simpa [migrate] using hx

/-- Witness for C7: a two-call scan trace — continuation cursor `7`, then
the sentinel — has both its batches written, the sentinel batch included. -/
theorem scan_loop_processes_trace_witness :
    migrate twoBatchSrc none (List.length twoBatchTrace)
      = some (Except.ok (traceOps twoBatchTrace)) ∧ count = 2500 :=
  scan_loop_processes_trace twoBatchSrc none twoBatchTrace
    ⟨rfl, by rfl, rfl, by rfl, trivial⟩ ⟨by decide, rfl⟩

/-! # C6: multi-db dispatch -/

/-- Helper: the starmap task list pairs each keyspace name positionally
with one task carrying its parsed index on both endpoints and its
enumeration ordinal as bar position. -/
theorem buildTasks_spec (cfg : DispatchCfg) :
    ∀ (ks : List String) (i0 : Nat) (tasks : List MigrateArgs),
      buildTasks cfg i0 ks = some tasks →
      tasks.length = ks.length ∧
      ∀ (i : Nat) (t : MigrateArgs) (k : String),
        tasks[i]? = some t → ks[i]? = some k →
        t.barpos = i0 + i ∧ dbIndex k = some t.srcdb ∧ t.dstdb = t.srcdb := by
  intro ks
  induction ks with
  | nil =>
    intro i0 tasks h
    simp only [buildTasks, Option.some.injEq] at h
    subst h
    exact ⟨rfl, fun i t k ht => by simp at ht⟩
  | cons db rest ih =>
    intro i0 tasks h
    simp only [buildTasks] at h
    rcases hdb : dbIndex db with _ | idx <;> rw [hdb] at h
    · simp at h
    · rcases hbt : buildTasks cfg (i0 + 1) rest with _ | more <;> rw [hbt] at h
      · simp at h
      · simp only [Option.some.injEq] at h
        subst h
        obtain ⟨hlen, hrest⟩ := ih (i0 + 1) more hbt
        refine ⟨by simp [hlen], ?_⟩
        intro i t k ht hk
        cases i with
        | zero =>
          simp only [List.getElem?_cons_zero, Option.some.injEq] at ht hk
          subst ht
          subst hk
          exact ⟨by simp, hdb, rfl⟩
        | succ j =>
          simp only [List.getElem?_cons_succ] at ht hk
          obtain ⟨hb, hd, hdd⟩ := hrest j t k ht hk
          exact ⟨by omega, hd, hdd⟩

/-- Helper: every task built by the starmap list carries exactly the
supplied source and destination credentials. -/
theorem buildTasks_passwords (cfg : DispatchCfg) :
    ∀ (ks : List String) (i0 : Nat) (tasks : List MigrateArgs),
      buildTasks cfg i0 ks = some tasks →
      ∀ t ∈ tasks, t.srcpasswd = cfg.srcpasswd ∧ t.dstpasswd = cfg.dstpasswd := by
  intro ks
  induction ks with
  | nil =>
    intro i0 tasks h
    simp only [buildTasks, Option.some.injEq] at h
    subst h
    intro t ht
    simp at ht
  | cons db rest ih =>
    intro i0 tasks h
    simp only [buildTasks] at h
    rcases hdb : dbIndex db with _ | idx <;> rw [hdb] at h
    · simp at h
    · rcases hbt : buildTasks cfg (i0 + 1) rest with _ | more <;> rw [hbt] at h
      · simp at h
      · simp only [Option.some.injEq] at h
        subst h
        intro t ht
        rcases List.mem_cons.mp ht with rfl | hmem
        · exact ⟨rfl, rfl⟩
        · exact ih (i0 + 1) more hbt t hmem

/-- C6: `migrate_all` launches exactly one migration task per populated
database, each bound to the index parsed from the `dbN` name on both
source and destination, with a pool size of `min(number of populated
databases, nprocs)` and the distinct enumeration ordinals `0..N-1` as
display positions. -/
theorem multi_db_dispatch (cfg : DispatchCfg) (ks : List String)
    (conn : KeyspaceInfoConn) (poolSize : Int) (tasks : List MigrateArgs)
    (h : migrate_all cfg ks = some (conn, poolSize, tasks)) :
    poolSize = min (ks.length : Int) cfg.nprocs ∧
    tasks.length = ks.length ∧
    ∀ (i : Nat) (t : MigrateArgs) (k : String),
      tasks[i]? = some t → ks[i]? = some k →
      t.barpos = i ∧ dbIndex k = some t.srcdb ∧ t.dstdb = t.srcdb := by
  unfold migrate_all at h
  rcases hbt : buildTasks cfg 0 ks with _ | ts <;> rw [hbt] at h
  · simp at h
  · simp only [Option.some.injEq, Prod.mk.injEq] at h
    obtain ⟨h1, h2, h3⟩ := h
    subst h3
    obtain ⟨hlen, hrest⟩ := buildTasks_spec cfg ks 0 ts hbt
    refine ⟨h2.symm, hlen, ?_⟩
    intro i t k ht hk
    obtain ⟨hb, hd, hdd⟩ := hrest i t k ht hk
    exact ⟨by omega, hd, hdd⟩

/-- Witness for C6 at the keyspace `db0, db3` with `nprocs = 4`: two tasks
are built, so the task count equals the database count. -/
theorem multi_db_dispatch_witness :
    ([plainTask0, plainTask1] : List MigrateArgs).length
      = (["db0", "db3"] : List String).length :=
  (multi_db_dispatch plainCfg ["db0", "db3"] plainConn 2
    [plainTask0, plainTask1] (by rfl)).2.1

/-! # C10: credential omitted on keyspace enumeration -/

/-- C10: the connection `migrate_all` opens for the keyspace-info query
carries no password — even when a source credential was supplied — while
the supplied credentials are passed to every per-database migration task. -/
theorem keyspace_conn_no_password (cfg : DispatchCfg) (ks : List String)
    (conn : KeyspaceInfoConn) (poolSize : Int) (tasks : List MigrateArgs)
    (h : migrate_all cfg ks = some (conn, poolSize, tasks)) :
    conn.password = none ∧ conn.host = cfg.srchost ∧ conn.port = cfg.srcport ∧
    ∀ t ∈ tasks, t.srcpasswd = cfg.srcpasswd ∧ t.dstpasswd = cfg.dstpasswd := by
  unfold migrate_all at h
  rcases hbt : buildTasks cfg 0 ks with _ | ts <;> rw [hbt] at h
  · simp at h
  · simp only [Option.some.injEq, Prod.mk.injEq] at h
    obtain ⟨h1, h2, h3⟩ := h
    subst h3
    rw [← h1]
    exact ⟨rfl, rfl, rfl, buildTasks_passwords cfg ks 0 ts hbt⟩

/-- Witness for C10: with credentials supplied for both endpoints, the
keyspace-info connection still has no password. -/
theorem keyspace_conn_no_password_witness :
    plainConn.password = none :=
  (keyspace_conn_no_password credCfg ["db1"] plainConn
    (min ((["db1"] : List String).length : Int) credCfg.nprocs)
    [credTask0] (by rfl)).1

/-! # C9: snapshot-mode conflict tolerance -/

/-- C9: in the snapshot-based migrator a restore result is accepted when it
is a success, or when it reports that the key already exists while
overwrite was requested; any other result raises `MigrationFailed` with the
key and the offending result. -/
theorem restore_conflict_tolerance (overwrite : Bool) (key : String) (r : RestoreResult) :
    ((r = RestoreResult.success ∨ (r = RestoreResult.keyExists ∧ overwrite = true)) →
      checkRestoreResult overwrite key r = Except.ok ()) ∧
    (¬(r = RestoreResult.success ∨ (r = RestoreResult.keyExists ∧ overwrite = true)) →
      checkRestoreResult overwrite key r = Except.error (key, r)) := by
  constructor
  · rintro (rfl | ⟨rfl, rfl⟩)
    · rfl
    · rfl
  · intro hn
    push_neg at hn
    obtain ⟨h1, h2⟩ := hn
    cases r with
    | success => exact absurd rfl h1
    | keyExists =>
      have hov : overwrite = false := by
        revert h2
        cases overwrite <;> simp
      simp [checkRestoreResult, hov]
    | other m => rfl

/-- Witness for C9: a key-exists result with overwrite requested is
accepted; the same result without overwrite raises `MigrationFailed`. -/
theorem restore_conflict_tolerance_witness :
    checkRestoreResult true "k" RestoreResult.keyExists = Except.ok () ∧
    checkRestoreResult false "k" RestoreResult.keyExists
      = Except.error ("k", RestoreResult.keyExists) :=
  ⟨(restore_conflict_tolerance true "k" RestoreResult.keyExists).1 (Or.inr ⟨rfl, rfl⟩),
   (restore_conflict_tolerance false "k" RestoreResult.keyExists).2 (by decide)⟩
